import Mathlib

/-!
Shallow embedding of the `gogo` tool (a "run Go source like a script" front
end).  Source bytes are modelled as `List Char` (the inputs relevant to the
claims are ASCII, where Go's `[]byte` operations and per-character operations
coincide).  Filesystem and subprocess effects are modelled by an outcome
oracle (`OSOracle`) together with an event trace (`Ev`), so that the control
flow of `runCached`, `runOnce` and `main` can be stated and proved about.
-/

namespace Gogo

/-- The whitespace test used by Go's `strings.TrimSpace` / `unicode.IsSpace`,
restricted to the ASCII range. -/
def isSpaceChar (c : Char) : Bool :=
  c = ' ' || c = '\t' || c = '\n' || c = '\r' || c = '\x0b' || c = '\x0c'

/-- `strings.TrimSpace`: drop leading and trailing whitespace. -/
def trimChars (l : List Char) : List Char :=
  ((l.dropWhile isSpaceChar).reverse.dropWhile isSpaceChar).reverse

/-- `strings.Split(s, "\n")` (and the line structure seen by
`bufio.Scanner`, which differs only by dropping a trailing empty chunk and a
trailing `\r`, handled at the use sites). -/
def splitNl (l : List Char) : List (List Char) := l.splitOn '\n'

/-- Value of a digit string, as computed by `strconv.Atoi` on the inputs that
arise here (the regexp only ever captures decimal digit runs). -/
def digitsVal (ds : List Char) : Nat :=
  ds.foldl (fun acc c => acc * 10 + (c.toNat - 48)) 0

/-- One structured compiler diagnostic: the capture groups of the pattern
`^(.+):(\d+):(\d+):\s*(.+)$` after `splitErrorType` has been applied to the
message.  The column is kept as text, exactly as in the source (`matches[3]`
is printed with `%s`). -/
structure Diagnostic where
  file : List Char
  line : Nat
  col : List Char
  errType : List Char
  desc : List Char
deriving DecidableEq, Repr

/-- One output entry of `parseGoErrors`: a structured diagnostic, a verbatim
passthrough of an unmatched (trimmed) line, or the final
"Compilation failed" banner. -/
inductive OutLine where
  | diag (d : Diagnostic)
  | passthrough (s : List Char)
  | banner
deriving DecidableEq, Repr

/-- Tail of the error pattern: `(\d+):(\d+):\s*(.+)$`, returning
(line number, column text, message).  The digit groups are deterministic
(greedy digits followed by a forced `:`); `\s*(.+)` backtracks one character
only when the remainder is all whitespace (which cannot happen for the
trimmed lines this is applied to). -/
def matchTail (rest : List Char) : Option (Nat × List Char × List Char) :=
  let ds1 := rest.takeWhile Char.isDigit
  let r1 := rest.dropWhile Char.isDigit
  if ds1 = [] then none else
  match r1 with
  | ':' :: r2 =>
    let ds2 := r2.takeWhile Char.isDigit
    let r3 := r2.dropWhile Char.isDigit
    if ds2 = [] then none else
    match r3 with
    | ':' :: r4 =>
      let msg := r4.dropWhile isSpaceChar
      if msg = [] then
        match r4.reverse with
        | [] => none
        | c :: _ => some (digitsVal ds1, ds2, [c])
      else some (digitsVal ds1, ds2, msg)
    | _ => none
  | _ => none

/-- Try to match `^(.+):(\d+):(\d+):\s*(.+)$` with the first (greedy) group
ending just before position `i`, which must hold a `:`. -/
def tryMatchAt (s : List Char) (i : Nat) : Option (List Char × Nat × List Char × List Char) :=
  if 1 ≤ i ∧ s.getD i ' ' = ':' then
    (matchTail (s.drop (i + 1))).map (fun t => (s.take i, t))
  else none

/-- `errorPattern.FindStringSubmatch` for the anchored pattern
`^(.+):(\d+):(\d+):\s*(.+)$` under Go's leftmost-first (backtracking)
semantics: the greedy first group tries the longest prefix first, so the
match is found at the largest colon position whose tail parses. -/
def matchErrorLine (s : List Char) : Option (List Char × Nat × List Char × List Char) :=
  ((List.range s.length).reverse).findSome? (tryMatchAt s)

/-- The closed vocabulary of category tokens in `splitErrorType`. -/
def knownTokens : List (List Char) :=
  ["undefined".toList, "cannot find package".toList, "imported and not used".toList,
   "declared but not used".toList, "syntax error".toList, "invalid operation".toList]

/-- `strings.Index(msg, ":")`: index of the first occurrence, `none` for
Go's `-1`. -/
def strIndex (c : Char) : List Char → Option Nat
  | [] => none
  | x :: xs => if x = c then some 0 else (strIndex c xs).map (· + 1)

/-- `splitErrorType`: split the message at the first colon into
(category, description) when the prefix before it is a known token at a
positive index; otherwise the whole message under the generic category. -/
def splitErrorType (msg : List Char) : List Char × List Char :=
  match strIndex ':' msg with
  | some idx =>
    if 0 < idx ∧ msg.take idx ∈ knownTokens then
      (msg.take idx, trimChars (msg.drop (idx + 1)))
    else ("error".toList, msg)
  | none => ("error".toList, msg)

/-- Classification of one raw output line inside the loop of
`parseGoErrors`: skipped when blank after trimming, a passthrough of the
trimmed line when the pattern does not match, a structured diagnostic
otherwise. -/
def classifyLine (l : List Char) : Option OutLine :=
  let t := trimChars l
  if t = [] then none
  else
    match matchErrorLine t with
    | none => some (OutLine.passthrough t)
    | some (f, ln, c, m) =>
      some (OutLine.diag ⟨f, ln, c, (splitErrorType m).1, (splitErrorType m).2⟩)

/-- Whether an entry is a genuine diagnostic (sets `foundErrors`). -/
def isDiagEntry : OutLine → Bool
  | OutLine.diag _ => true
  | _ => false

/-- The line loop of `parseGoErrors`, accumulating `foundErrors`; after the
loop, a terminal failure banner is emitted iff a genuine diagnostic was
found. -/
def processLines : List (List Char) → Bool → List OutLine
  | [], found => if found then [OutLine.banner] else []
  | l :: ls, found =>
    match classifyLine l with
    | none => processLines ls found
    | some e => e :: processLines ls (found || isDiagEntry e)

/-- `parseGoErrors`: split the raw compiler output on newlines and classify
each line.  (The rendering of the per-diagnostic source excerpt is modelled
separately by `showSourceContext`.) -/
def parseGoErrors (rawOutput : List Char) : List OutLine :=
  processLines (splitNl rawOutput) false

/-- `showSourceContext`: the excerpt emitted for an error line, as a list of
(1-based line number, marked?, line text).  `start := errorLine - 2` uses
truncated `Nat` subtraction, which realizes Go's `if start < 0 { start = 0 }`
clamp for the `errorLine ≥ 1` values that pass the range guard. -/
def showSourceContext (source : List Char) (errorLine : Nat) : List (Nat × Bool × List Char) :=
  let lines := splitNl source
  if errorLine < 1 ∨ lines.length < errorLine then []
  else
    let start := errorLine - 2
    let stop := min (errorLine + 1) lines.length
    (List.range' start (stop - start)).map (fun i => (i + 1, i + 1 == errorLine, lines.getD i []))

/-- Suffix after the first `'\n'`, scanning left to right (the search loop of
`stripShebang` from index 2). -/
def afterNl : List Char → Option (List Char)
  | [] => none
  | '\n' :: rest => some rest
  | _ :: rest => afterNl rest

/-- `stripShebang`: when the buffer has length > 2 and starts with the
two-byte directive marker `#!`, return everything after the first newline,
or the original buffer with an error when no newline exists; otherwise the
buffer unchanged with no error.  The error component models the non-nil
`error` return. -/
def stripShebang (code : List Char) : List Char × Option Unit :=
  match code with
  | c1 :: c2 :: c3 :: rest =>
    if c1 = '#' ∧ c2 = '!' then
      match afterNl (c3 :: rest) with
      | some tail => (tail, none)
      | none => (code, some ())
    else (code, none)
  | _ => (code, none)

/-- Drop one trailing `'\r'`, as `bufio.ScanLines` does on each line. -/
def dropCR (l : List Char) : List Char :=
  match l.reverse with
  | '\r' :: r => r.reverse
  | _ => l

/-- The scanner loop of `validateCode`: skip blank and `//` comment lines;
accept when the first substantive line starts with `package `; any other
substantive line, or exhaustion, is the validation error (`some ()`). -/
def validateLoop : List (List Char) → Option Unit
  | [] => some ()
  | l :: ls =>
    let t := trimChars (dropCR l)
    if t = [] ∨ ("//".toList).isPrefixOf t then validateLoop ls
    else if ("package ".toList).isPrefixOf t then none
    else some ()

/-- `validateCode`: `some ()` is the `"code must contain \"package <name>\""`
error, `none` is success. -/
def validateCode (code : List Char) : Option Unit :=
  validateLoop (splitNl code)

/-! ## Cache store, build orchestrator and `main`

Filesystem and subprocess calls are external effects; their outcomes are
supplied by an `OSOracle` and the calls themselves are recorded in an event
trace, so the order of operations and the error propagation of the source
can be proved about for every outcome combination. -/

/-- One external-effect call made by the program. -/
inductive Ev where
  | stat (p : String)
  | runBinary (p : String)
  | mkdirAll (p : String)
  | writeFile (p : String)
  | mkdirTemp (d : String)
  | removeAll (p : String)
  | tidyRun (dir : String)
  | buildRun (dir out : String)
  | chmod (p : String)
  | goRun (dir : String)
  | usagePrinted
deriving DecidableEq, Repr

/-- The distinct error values surfaced by `runCached` / `runOnce` / `main`
(each corresponds to a distinct `error` construction in the source;
`tidyFailed` is `"go mod tidy failed: %w"`, `compilationFailed` is
`"compilation failed"` after diagnostics were rendered, `buildFailedRaw` is
`"build failed: %v"` when no stderr text was captured). -/
inductive GoErr where
  | mkdirFailed
  | writeFailed
  | mkdirTempFailed
  | tidyFailed
  | buildFailedRaw
  | compilationFailed
  | binRunFailed
  | goRunFailed
deriving DecidableEq, Repr

/-- Outcomes of the external calls for one invocation.  `sha16` abstracts
`hex.EncodeToString(sha256.Sum256(code)[:])[:16]` — a pure, deterministic
function of the source bytes whose internals no claim depends on.  `ageNs`
models `time.Since(info.ModTime())` in nanoseconds for a successfully
stat'ed path (an `Int`: a future modification time gives a negative
duration). -/
structure OSOracle where
  ucdOk : Bool
  ucd : String
  isWindows : Bool
  sha16 : List Char → String
  statOk : String → Bool
  ageNs : String → Int
  mkdirAllOk : String → Bool
  writeFileOk : String → Bool
  mkdirTempOk : Bool
  tmpDir : String
  tidyOk : Bool
  buildOk : Bool
  buildStderr : List Char
  runOk : Bool
  goRunOk : Bool

/-- `filepath.Join` on the two-component paths used here. -/
def pathJoin (a b : String) : String :=
  if a = "" then b else if b = "" then a else a ++ "/" ++ b

/-- The freshness TTL `3*24*time.Hour` in nanoseconds. -/
def ttlNanos : Int := 3 * 24 * 60 * 60 * 1000000000

/-- `getCachePaths`: on `os.UserCacheDir` failure returns `("", "")` — the
return type carries no error, so nothing is signalled to the caller.
Otherwise `<cacheRoot>/gogo/<hash16>` and the platform binary name. -/
def getCachePaths (o : OSOracle) (code : List Char) : String × String :=
  if o.ucdOk then
    let dir := pathJoin (pathJoin o.ucd "gogo") (o.sha16 code)
    let binName := if o.isWindows then "run.exe" else "run"
    (dir, pathJoin dir binName)
  else ("", "")

/-- `createModule`: write `go.mod` then `main.go` into `dir`, stopping at the
first failing write.  (The `go.mod` contents — module name and the toolchain
version reduced to major.minor — are data only and not modelled.) -/
def createModule (o : OSOracle) (dir : String) : List Ev × Option GoErr :=
  let p1 := pathJoin dir "go.mod"
  if o.writeFileOk p1 then
    let p2 := pathJoin dir "main.go"
    ([Ev.writeFile p1, Ev.writeFile p2],
      if o.writeFileOk p2 then none else some GoErr.writeFailed)
  else ([Ev.writeFile p1], some GoErr.writeFailed)

/-- `buildWith`: run `go build -o binaryPath .` in `tmpDir`; on failure,
a generic error when no stderr was captured, otherwise the captured text is
handed to `parseGoErrors` and `"compilation failed"` is returned. -/
def buildWith (o : OSOracle) (tmpDir binaryPath : String) : List Ev × Option GoErr :=
  ([Ev.buildRun tmpDir binaryPath],
    if o.buildOk then none
    else if o.buildStderr = [] then some GoErr.buildFailedRaw
    else some GoErr.compilationFailed)

/-- The part of `runCached` that runs while the deferred
`os.RemoveAll(tmpDir)` is pending: module setup, `go mod tidy`, the build
(with cache-entry rollback on build failure only), the ignored `Chmod` and
`meta.txt` write, and the cached-binary execution. -/
def cachedBody (o : OSOracle) (cacheDir binaryPath : String) : List Ev × Option GoErr :=
  let m := createModule o o.tmpDir
  match m.2 with
  | some e => (m.1, some e)
  | none =>
    if o.tidyOk then
      let b := buildWith o o.tmpDir binaryPath
      match b.2 with
      | some e => (m.1 ++ [Ev.tidyRun o.tmpDir] ++ b.1 ++ [Ev.removeAll cacheDir], some e)
      | none =>
        let chmodEvs := if o.isWindows then [] else [Ev.chmod binaryPath]
        (m.1 ++ [Ev.tidyRun o.tmpDir] ++ b.1 ++ chmodEvs
           ++ [Ev.writeFile (pathJoin cacheDir "meta.txt"), Ev.runBinary binaryPath],
         if o.runOk then none else some GoErr.binRunFailed)
    else (m.1 ++ [Ev.tidyRun o.tmpDir], some GoErr.tidyFailed)

/-- `runCached`: cache lookup (stat + freshness) with early hit return;
otherwise create the entry directory, persist the source, create the build
workspace (whose removal is deferred to function return on every later
path), and run `cachedBody`. -/
def runCached (o : OSOracle) (code : List Char) : List Ev × Option GoErr :=
  let p := getCachePaths o code
  let cacheDir := p.1
  let binaryPath := p.2
  if o.statOk binaryPath ∧ o.ageNs binaryPath < ttlNanos then
    ([Ev.stat binaryPath, Ev.runBinary binaryPath],
     if o.runOk then none else some GoErr.binRunFailed)
  else
    if o.mkdirAllOk cacheDir then
      let sourcePath := pathJoin cacheDir "main.go"
      if o.writeFileOk sourcePath then
        let pre := [Ev.stat binaryPath, Ev.mkdirAll cacheDir, Ev.writeFile sourcePath]
        if o.mkdirTempOk then
          let body := cachedBody o cacheDir binaryPath
          (pre ++ (Ev.mkdirTemp o.tmpDir :: body.1) ++ [Ev.removeAll o.tmpDir], body.2)
        else (pre, some GoErr.mkdirTempFailed)
      else ([Ev.stat binaryPath, Ev.mkdirAll cacheDir, Ev.writeFile sourcePath],
            some GoErr.writeFailed)
    else ([Ev.stat binaryPath, Ev.mkdirAll cacheDir], some GoErr.mkdirFailed)

/-- The part of `runOnce` under its deferred `os.RemoveAll(tmpDir)`:
module setup, `go mod tidy`, then `go run .`. -/
def onceBody (o : OSOracle) : List Ev × Option GoErr :=
  let m := createModule o o.tmpDir
  match m.2 with
  | some e => (m.1, some e)
  | none =>
    if o.tidyOk then
      (m.1 ++ [Ev.tidyRun o.tmpDir, Ev.goRun o.tmpDir],
       if o.goRunOk then none else some GoErr.goRunFailed)
    else (m.1 ++ [Ev.tidyRun o.tmpDir], some GoErr.tidyFailed)

/-- `runOnce`: no-cache mode — workspace creation (removal deferred to
function return), module setup, tidy, `go run`. -/
def runOnce (o : OSOracle) (_code : List Char) : List Ev × Option GoErr :=
  if o.mkdirTempOk then
    let body := onceBody o
    (Ev.mkdirTemp o.tmpDir :: body.1 ++ [Ev.removeAll o.tmpDir], body.2)
  else ([], some GoErr.mkdirTempFailed)

/-- `main` after a successful `readInput`, with `-ver`/`-clear` not given:
the run block at lines 365–374 of the source executes `runOnce`/`runCached`
first; only afterwards come the empty-input usage check, `validateCode`,
`stripShebang` and the second run block.  Result: (event trace, exit
code). -/
def mainGo (o : OSOracle) (once : Bool) (code : List Char) : List Ev × Nat :=
  let r1 := if once then runOnce o code else runCached o code
  match r1.2 with
  | some _ => (r1.1, 1)
  | none =>
    if code = [] then (r1.1 ++ [Ev.usagePrinted], 1)
    else
      match validateCode code with
      | some _ => (r1.1, 1)
      | none =>
        let s := stripShebang code
        match s.2 with
        | some _ => (r1.1, 1)
        | none =>
          let r2 := if once then runOnce o s.1 else runCached o s.1
          (r1.1 ++ r2.1, match r2.2 with | some _ => 1 | none => 0)

/-! ## Helper lemmas -/

theorem mem_processLines {ls : List (List Char)} {l : List Char} {e : OutLine}
    (hmem : l ∈ ls) (hcl : classifyLine l = some e) (found : Bool) :
    e ∈ processLines ls found := by
  induction ls generalizing found with
  | nil => cases hmem
  | cons x xs ih =>
    rcases List.mem_cons.mp hmem with rfl | hx
    · unfold processLines
      rw [hcl]
      exact List.mem_cons_self _ _
    · unfold processLines
      cases hcx : classifyLine x with
      | none => exact ih hx _
      | some e' => exact List.mem_cons_of_mem _ (ih hx _)

theorem strIndex_not_mem {c : Char} : ∀ {l : List Char}, c ∉ l → strIndex c l = none := by
  intro l
  induction l with
  | nil => intro _; rfl
  | cons x xs ih =>
    intro h
    have hx : ¬ x = c := fun hh => h (hh ▸ List.mem_cons_self x xs)
    have hxs : c ∉ xs := fun hh => h (List.mem_cons_of_mem _ hh)
    simp [strIndex, hx, ih hxs]

theorem strIndex_append_cons {c : Char} :
    ∀ {pre : List Char} (post : List Char), c ∉ pre →
      strIndex c (pre ++ c :: post) = some pre.length := by
  intro pre
  induction pre with
  | nil => intro post _; simp [strIndex]
  | cons x xs ih =>
    intro post h
    have hx : ¬ x = c := fun hh => h (hh ▸ List.mem_cons_self x xs)
    have hxs : c ∉ xs := fun hh => h (List.mem_cons_of_mem _ hh)
    simp [strIndex, hx, ih post hxs]

theorem take_len_append (pre rest : List Char) :
    (pre ++ rest).take pre.length = pre := by
  simp

theorem drop_len_succ_append (pre post : List Char) (c : Char) :
    (pre ++ c :: post).drop (pre.length + 1) = post := by
  induction pre with
  | nil => simp
  | cons x xs ih => simp [List.drop, ih]

/-! ## Claim C6 -/

/-- C6 counterexample: the raw line `"  x y  "` is non-blank and does not
match the pattern, but the emitted passthrough entry is the trimmed text
`"x y"`, not the line verbatim — the verbatim part of the claim fails. -/
theorem c6_passthrough_not_verbatim :
    parseGoErrors ("  x y  ".toList) = [OutLine.passthrough ("x y".toList)] ∧
    OutLine.passthrough ("  x y  ".toList) ∉ parseGoErrors ("  x y  ".toList) ∧
    "  x y  ".toList ≠ "x y".toList := by
  decide

/-- C6 (amended): every non-blank raw compiler-output line that matches
`file:line:column: message` yields one Diagnostic whose message is split at
the first colon into (category, description) exactly when the prefix before
that colon is a known category token (case-sensitive), and otherwise carries
the whole message under the generic "error" category; every non-blank
non-matching line is emitted as a passthrough entry holding the
whitespace-trimmed line (trimmed, not verbatim) and is never dropped.
Parsing `"main.go:10:5: undefined: foo"` yields file `main.go`, line 10,
column `"5"`, category `undefined`, description `foo`; parsing
`"some unmatched free text"` yields that text unchanged as one passthrough
entry. -/
theorem c6_parse_classification :
    (∀ raw l, l ∈ splitNl raw → trimChars l ≠ [] → matchErrorLine (trimChars l) = none →
        OutLine.passthrough (trimChars l) ∈ parseGoErrors raw) ∧
    (∀ raw l f ln c m, l ∈ splitNl raw → matchErrorLine (trimChars l) = some (f, ln, c, m) →
        OutLine.diag ⟨f, ln, c, (splitErrorType m).1, (splitErrorType m).2⟩ ∈ parseGoErrors raw) ∧
    (∀ pre post : List Char, ':' ∉ pre → pre ≠ [] →
        splitErrorType (pre ++ ':' :: post) =
          if pre ∈ knownTokens then (pre, trimChars post)
          else ("error".toList, pre ++ ':' :: post)) ∧
    (∀ msg : List Char, ':' ∉ msg → splitErrorType msg = ("error".toList, msg)) ∧
    parseGoErrors ("main.go:10:5: undefined: foo".toList) =
      [OutLine.diag ⟨"main.go".toList, 10, "5".toList, "undefined".toList, "foo".toList⟩,
       OutLine.banner] ∧
    parseGoErrors ("some unmatched free text".toList) =
      [OutLine.passthrough ("some unmatched free text".toList)] := by
  refine ⟨?_, ?_, ?_, ?_, by decide, by decide⟩
  · intro raw l hmem ht hnone
    unfold parseGoErrors
    exact mem_processLines hmem (by simp [classifyLine, ht, hnone]) false
  · intro raw l f ln c m hmem hmatch
    have ht : trimChars l ≠ [] := by
      intro h0
      rw [h0] at hmatch
      simp [matchErrorLine] at hmatch
    unfold parseGoErrors
    exact mem_processLines hmem (by simp [classifyLine, ht, hmatch]) false
  · intro pre post hpre hne
    have hlen : 0 < pre.length := List.length_pos.mpr hne
    unfold splitErrorType
    rw [strIndex_append_cons post hpre]
    by_cases hmem : pre ∈ knownTokens <;>
      simp [take_len_append, drop_len_succ_append, hmem, hlen]
  · intro msg hmsg
    unfold splitErrorType
    rw [strIndex_not_mem hmsg]

/-- C6 witness: the passthrough rule of `c6_parse_classification` applied to
the single-line raw output `"exit status 1"`. -/
theorem c6_parse_classification_witness :
    "exit status 1".toList ∈ splitNl ("exit status 1".toList) ∧
    trimChars ("exit status 1".toList) ≠ [] ∧
    matchErrorLine (trimChars ("exit status 1".toList)) = none ∧
    OutLine.passthrough (trimChars ("exit status 1".toList)) ∈
      parseGoErrors ("exit status 1".toList) :=
  ⟨by decide, by decide, by decide,
    c6_parse_classification.1 _ _ (by decide) (by decide) (by decide)⟩

/-! ## Claim C7 -/

/-- C7 counterexample: `"#!a\n#!b\nd"` is itself an output of `stripShebang`
(on input `"#!x\n#!a\n#!b\nd"`), yet applying `stripShebang` twice to it
gives `"d"` while applying it once gives `"#!b\nd"` — idempotence on its own
output fails when the stripped output again starts with the marker. -/
theorem c7_strip_not_idempotent_on_own_output :
    stripShebang ("#!x\n#!a\n#!b\nd".toList) = ("#!a\n#!b\nd".toList, none) ∧
    stripShebang ("#!a\n#!b\nd".toList) = ("#!b\nd".toList, none) ∧
    (stripShebang ((stripShebang ("#!a\n#!b\nd".toList)).1)).1 ≠
      (stripShebang ("#!a\n#!b\nd".toList)).1 := by
  decide

/-- C7 (amended): `stripShebang` is a no-op (input unchanged, no error) for
every input that does not start with the two-byte directive marker `#!`;
consequently applying it twice agrees with applying it once whenever the
once-stripped output does not itself begin with the marker (an output that
again starts with `#!` is stripped again). -/
theorem c7_strip_noop_outside_marker :
    (∀ code : List Char, ¬ ("#!".toList).isPrefixOf code → stripShebang code = (code, none)) ∧
    (∀ x : List Char, ¬ ("#!".toList).isPrefixOf (stripShebang x).1 →
        stripShebang ((stripShebang x).1) = ((stripShebang x).1, none)) := by
  have base : ∀ code : List Char, ¬ ("#!".toList).isPrefixOf code →
      stripShebang code = (code, none) := by
    intro code h
    rcases code with _ | ⟨c1, _ | ⟨c2, _ | ⟨c3, rest⟩⟩⟩
    · rfl
    · rfl
    · rfl
    · have hno : ¬ (c1 = '#' ∧ c2 = '!') := by
        rintro ⟨rfl, rfl⟩
        exact h (by simp [List.isPrefixOf])
      simp [stripShebang, hno]
  exact ⟨base, fun x hx => base _ hx⟩

/-- C7 witness: the no-op half of `c7_strip_noop_outside_marker` at the
concrete input `"package main\n"`. -/
theorem c7_strip_noop_outside_marker_witness :
    ¬ ("#!".toList).isPrefixOf ("package main\n".toList) ∧
    stripShebang ("package main\n".toList) = ("package main\n".toList, none) :=
  ⟨by decide, c7_strip_noop_outside_marker.1 _ (by decide)⟩

/-! ## Claim C8 -/

/-- C8: when the diagnostic's line number is within 1..(number of lines),
the emitted excerpt consists of exactly the lines numbered from
`max 1 (e-1)` through `min L (e+1)` — one before through one after the
erroring line, clipped at the source boundaries — with an entry marked
exactly when it is the erroring line; when the line number is outside that
range the excerpt is empty (silently omitted). -/
theorem c8_context_window (src : List Char) (e : Nat) :
    (1 ≤ e → e ≤ (splitNl src).length →
      ((showSourceContext src e).map (fun p => p.1) =
          List.range' (max 1 (e - 1)) (min ((splitNl src).length) (e + 1) + 1 - max 1 (e - 1)) ∧
        ∀ p ∈ showSourceContext src e, (p.2.1 = true ↔ p.1 = e))) ∧
    ((e < 1 ∨ (splitNl src).length < e) → showSourceContext src e = []) := by
  constructor
  · intro h1 h2
    have hcond : ¬ (e < 1 ∨ (splitNl src).length < e) := by omega
    constructor
    · simp only [showSourceContext]
      rw [if_neg hcond, List.map_map]
      have hcomp : (fun p : Nat × Bool × List Char => p.1) ∘
          (fun i => (i + 1, i + 1 == e, (splitNl src).getD i [])) = fun i => i + 1 := rfl
      rw [hcomp]
      have hmap : (List.range' (e - 2) (min (e + 1) (splitNl src).length - (e - 2))).map
            (fun i => i + 1)
          = List.range' ((e - 2) + 1) (min (e + 1) (splitNl src).length - (e - 2)) := by
        have := List.map_add_range' 1 (e - 2) (min (e + 1) (splitNl src).length - (e - 2)) 1
        simpa [Nat.add_comm] using this
      rw [hmap]
      congr 1
      · omega
      · omega
    · intro p hp
      simp only [showSourceContext] at hp
      rw [if_neg hcond] at hp
      rcases List.mem_map.mp hp with ⟨i, _, rfl⟩
      simp
  · intro h
    simp only [showSourceContext]
    rw [if_pos h]

/-- C8 witness: `c8_context_window` on the three-line source `"a\nb\nc"` at
error line 2: the excerpt shows lines 1, 2, 3 with line 2 marked. -/
theorem c8_context_window_witness :
    (1 ≤ 2 ∧ 2 ≤ (splitNl ("a\nb\nc".toList)).length) ∧
    ((showSourceContext ("a\nb\nc".toList) 2).map (fun p => p.1) =
        List.range' (max 1 (2 - 1)) (min ((splitNl ("a\nb\nc".toList)).length) (2 + 1) + 1 - max 1 (2 - 1)) ∧
      ∀ p ∈ showSourceContext ("a\nb\nc".toList) 2, (p.2.1 = true ↔ p.1 = 2)) :=
  ⟨by decide, (c8_context_window ("a\nb\nc".toList) 2).1 (by decide) (by decide)⟩

/-! ## Concrete oracles for witnesses and counterexamples -/

/-- A fully successful outcome oracle with no pre-existing cache entry. -/
def oracleOk : OSOracle where
  ucdOk := true
  ucd := "/home/u/.cache"
  isWindows := false
  sha16 := fun _ => "0123456789abcdef"
  statOk := fun _ => false
  ageNs := fun _ => 0
  mkdirAllOk := fun _ => true
  writeFileOk := fun _ => true
  mkdirTempOk := true
  tmpDir := "/tmp/gogo-build-1"
  tidyOk := true
  buildOk := true
  buildStderr := []
  runOk := true
  goRunOk := true

/-- Oracle in which `go mod tidy` (dependency resolution) fails. -/
def oracleTidyFail : OSOracle := { oracleOk with tidyOk := false }

/-- Oracle in which dependency resolution fails, distinct workspace name. -/
def oracleDepFail : OSOracle :=
  { oracleOk with tidyOk := false, tmpDir := "/tmp/gogo-build-2" }

/-- Oracle in which the compiler fails with captured stderr text. -/
def oracleCompileFail : OSOracle :=
  { oracleOk with buildOk := false,
                  buildStderr := "main.go:1:1: expected 'package', found 'EOF'".toList }

/-- Oracle in which `os.UserCacheDir` fails. -/
def oracleNoUcd : OSOracle := { oracleOk with ucdOk := false }

/-! ## Claim C4 -/

/-- C4: the cache lookup in `runCached` is a Hit — the trace is the artifact
stat followed directly by execution of the cached binary — iff the stat
succeeds and the artifact's age is strictly below the 3-day TTL; any other
outcome (missing artifact, or age at least the TTL) is routed to the
rebuild path (entry-directory creation directly follows the stat) and is
not reported as a lookup error. -/
theorem c4_lookup_hit_iff_fresh (o : OSOracle) (code : List Char) :
    ((runCached o code).1 =
        [Ev.stat (getCachePaths o code).2, Ev.runBinary (getCachePaths o code).2] ↔
      (o.statOk (getCachePaths o code).2 = true ∧
        o.ageNs (getCachePaths o code).2 < ttlNanos)) ∧
    (¬ (o.statOk (getCachePaths o code).2 = true ∧
        o.ageNs (getCachePaths o code).2 < ttlNanos) →
      (runCached o code).1.take 2 =
        [Ev.stat (getCachePaths o code).2, Ev.mkdirAll (getCachePaths o code).1]) := by
  by_cases hhit : (o.statOk (getCachePaths o code).2 = true ∧
      o.ageNs (getCachePaths o code).2 < ttlNanos)
  · constructor
    · simp [runCached, hhit]
    · intro hc
      exact absurd hhit hc
  · constructor
    · simp only [runCached]
      rw [if_neg hhit]
      simp only [hhit, iff_false]
      split_ifs <;> simp
    · intro _
      simp only [runCached]
      rw [if_neg hhit]
      split_ifs <;> simp

/-- C4 witness: with no artifact on disk (`statOk` false everywhere) the
lookup is a Miss and the trace proceeds to entry-directory creation. -/
theorem c4_lookup_hit_iff_fresh_witness :
    ¬ (oracleOk.statOk (getCachePaths oracleOk ("package main\n".toList)).2 = true ∧
        oracleOk.ageNs (getCachePaths oracleOk ("package main\n".toList)).2 < ttlNanos) ∧
    (runCached oracleOk ("package main\n".toList)).1.take 2 =
      [Ev.stat (getCachePaths oracleOk ("package main\n".toList)).2,
        Ev.mkdirAll (getCachePaths oracleOk ("package main\n".toList)).1] :=
  ⟨by decide, (c4_lookup_hit_iff_fresh oracleOk ("package main\n".toList)).2 (by decide)⟩

/-! ## Claim C2 -/

/-- C2 counterexample: when dependency resolution (`go mod tidy`) fails
after the entry directory was created, the entry directory is NOT removed
(only the build workspace is), refuting "the entry directory is removed
wholesale whenever any step after directory creation fails". -/
theorem c2_tidy_failure_leaves_entry_dir :
    (runCached oracleTidyFail ("package main\n".toList)).2 = some GoErr.tidyFailed ∧
    Ev.mkdirAll "/home/u/.cache/gogo/0123456789abcdef" ∈
      (runCached oracleTidyFail ("package main\n".toList)).1 ∧
    Ev.removeAll "/home/u/.cache/gogo/0123456789abcdef" ∉
      (runCached oracleTidyFail ("package main\n".toList)).1 := by
  decide

/-- C2 (amended): the entry directory is removed wholesale only when the
compilation step itself fails; a module-setup or dependency-resolution
failure aborts the run without removing the directory, but also without
ever invoking the compiler, so no artifact is produced for the entry; and
permission-setting and metadata-write errors are ignored entirely — the
run proceeds to execute the binary regardless of the metadata write's
outcome, so a populated entry need not contain metadata to be used. -/
theorem c2_rollback_only_on_compile_failure (o : OSOracle) (code : List Char)
    (hmiss : ¬ (o.statOk (getCachePaths o code).2 = true ∧
        o.ageNs (getCachePaths o code).2 < ttlNanos))
    (hmk : o.mkdirAllOk (getCachePaths o code).1 = true)
    (hws : o.writeFileOk (pathJoin (getCachePaths o code).1 "main.go") = true)
    (htmp : o.mkdirTempOk = true)
    (hw1 : o.writeFileOk (pathJoin o.tmpDir "go.mod") = true)
    (hw2 : o.writeFileOk (pathJoin o.tmpDir "main.go") = true)
    (hne : o.tmpDir ≠ (getCachePaths o code).1) :
    (o.tidyOk = false →
        Ev.removeAll (getCachePaths o code).1 ∉ (runCached o code).1 ∧
        (∀ d out, Ev.buildRun d out ∉ (runCached o code).1) ∧
        (runCached o code).2 = some GoErr.tidyFailed) ∧
    (o.tidyOk = true → o.buildOk = false →
        Ev.removeAll (getCachePaths o code).1 ∈ (runCached o code).1) ∧
    (o.tidyOk = true → o.buildOk = true →
        Ev.runBinary (getCachePaths o code).2 ∈ (runCached o code).1 ∧
        (runCached o code).2 = (if o.runOk then none else some GoErr.binRunFailed)) := by
  have hne' : (getCachePaths o code).1 ≠ o.tmpDir := Ne.symm hne
  refine ⟨?_, ?_, ?_⟩
  · intro htidy
    refine ⟨?_, ?_, ?_⟩ <;>
      simp [runCached, cachedBody, createModule, buildWith, hmiss, hmk, hws, htmp,
            hw1, hw2, htidy, hne']
  · intro htidy hbuild
    by_cases hse : o.buildStderr = [] <;>
      simp [runCached, cachedBody, createModule, buildWith, hmiss, hmk, hws, htmp,
            hw1, hw2, htidy, hbuild, hse]
  · intro htidy hbuild
    constructor <;>
      simp [runCached, cachedBody, createModule, buildWith, hmiss, hmk, hws, htmp,
            hw1, hw2, htidy, hbuild]

/-- C2 witness: `c2_rollback_only_on_compile_failure` at the concrete
tidy-failure oracle. -/
theorem c2_rollback_only_on_compile_failure_witness :
    Ev.removeAll (getCachePaths oracleTidyFail ("package a\n".toList)).1 ∉
      (runCached oracleTidyFail ("package a\n".toList)).1 ∧
    (runCached oracleTidyFail ("package a\n".toList)).2 = some GoErr.tidyFailed :=
  ⟨((c2_rollback_only_on_compile_failure oracleTidyFail ("package a\n".toList)
      (by decide) (by decide) (by decide) (by decide) (by decide) (by decide)
      (by decide)).1 (by decide)).1,
   ((c2_rollback_only_on_compile_failure oracleTidyFail ("package a\n".toList)
      (by decide) (by decide) (by decide) (by decide) (by decide) (by decide)
      (by decide)).1 (by decide)).2.2⟩

/-! ## Claim C3 -/

/-- C3 counterexample: a dependency-resolution failure happens only after
the entry directory has been created and the source persisted into it, and
neither is removed — so "no new entry directory or files for the
fingerprint exist afterward" fails on the code. -/
theorem c3_dep_failure_creates_entry_files :
    (runCached oracleDepFail ("package main\nfunc main() {}\n".toList)).2 =
      some GoErr.tidyFailed ∧
    Ev.mkdirAll "/home/u/.cache/gogo/0123456789abcdef" ∈
      (runCached oracleDepFail ("package main\nfunc main() {}\n".toList)).1 ∧
    Ev.writeFile "/home/u/.cache/gogo/0123456789abcdef/main.go" ∈
      (runCached oracleDepFail ("package main\nfunc main() {}\n".toList)).1 ∧
    Ev.removeAll "/home/u/.cache/gogo/0123456789abcdef" ∉
      (runCached oracleDepFail ("package main\nfunc main() {}\n".toList)).1 := by
  decide

/-- C3 (amended): a dependency-resolution failure is fatal for the run and
is reported by an error (`go mod tidy failed`) distinct from both
compilation-failure errors; it aborts before the compiler is invoked and
produces no artifact or metadata; a fresh existing entry is never disturbed
because a fresh hit returns before resolution runs; but the entry directory
and the persisted source are created before resolution and remain
afterward (only the build workspace is removed). -/
theorem c3_dep_failure_behavior (o : OSOracle) (code : List Char) :
    ((o.statOk (getCachePaths o code).2 = true ∧
        o.ageNs (getCachePaths o code).2 < ttlNanos) →
      (runCached o code).1 =
        [Ev.stat (getCachePaths o code).2, Ev.runBinary (getCachePaths o code).2]) ∧
    (¬ (o.statOk (getCachePaths o code).2 = true ∧
        o.ageNs (getCachePaths o code).2 < ttlNanos) →
      o.mkdirAllOk (getCachePaths o code).1 = true →
      o.writeFileOk (pathJoin (getCachePaths o code).1 "main.go") = true →
      o.mkdirTempOk = true →
      o.writeFileOk (pathJoin o.tmpDir "go.mod") = true →
      o.writeFileOk (pathJoin o.tmpDir "main.go") = true →
      o.tidyOk = false →
      (runCached o code).1 =
        [Ev.stat (getCachePaths o code).2,
          Ev.mkdirAll (getCachePaths o code).1,
          Ev.writeFile (pathJoin (getCachePaths o code).1 "main.go"),
          Ev.mkdirTemp o.tmpDir,
          Ev.writeFile (pathJoin o.tmpDir "go.mod"),
          Ev.writeFile (pathJoin o.tmpDir "main.go"),
          Ev.tidyRun o.tmpDir,
          Ev.removeAll o.tmpDir] ∧
      (runCached o code).2 = some GoErr.tidyFailed ∧
      GoErr.tidyFailed ≠ GoErr.compilationFailed ∧
      GoErr.tidyFailed ≠ GoErr.buildFailedRaw) := by
  constructor
  · intro hhit
    simp [runCached, hhit]
  · intro hmiss hmk hws htmp hw1 hw2 htidy
    refine ⟨?_, ?_, by decide, by decide⟩ <;>
      simp [runCached, cachedBody, createModule, hmiss, hmk, hws, htmp, hw1, hw2, htidy]

/-- C3 witness: `c3_dep_failure_behavior` at the concrete
dependency-failure oracle. -/
theorem c3_dep_failure_behavior_witness :
    (runCached oracleDepFail ("package b\n".toList)).2 = some GoErr.tidyFailed ∧
    GoErr.tidyFailed ≠ GoErr.compilationFailed :=
  ⟨(((c3_dep_failure_behavior oracleDepFail ("package b\n".toList)).2
      (by decide) (by decide) (by decide) (by decide) (by decide) (by decide)
      (by decide)).2.1),
   (((c3_dep_failure_behavior oracleDepFail ("package b\n".toList)).2
      (by decide) (by decide) (by decide) (by decide) (by decide) (by decide)
      (by decide)).2.2.1)⟩

/-! ## Claim C9 -/

theorem getLast?_concat_gen {α : Type} (l : List α) (a : α) :
    (l ++ [a]).getLast? = some a := List.getLast?_concat l

theorem getLast?_nested {α : Type} (p X : List α) (b a : α) :
    (p ++ ((b :: X) ++ [a])).getLast? = some a := by
  have h := getLast?_concat_gen (p ++ (b :: X)) a
  simpa [List.append_assoc] using h

theorem getLast?_cons_append_one {α : Type} (b : α) (X : List α) (a : α) :
    (b :: (X ++ [a])).getLast? = some a := getLast?_concat_gen (b :: X) a

/-- C9: in both cached and no-cache mode, whenever the ephemeral build
workspace was created (the `mkdirTemp` event is in the trace), the very
last event of the run is its removal — the deferred `os.RemoveAll(tmpDir)`
fires on every exit path, success or failure, so no workspace outlives the
build attempt. -/
theorem c9_workspace_removed_last (o : OSOracle) (code : List Char) :
    (Ev.mkdirTemp o.tmpDir ∈ (runCached o code).1 →
        (runCached o code).1.getLast? = some (Ev.removeAll o.tmpDir)) ∧
    (Ev.mkdirTemp o.tmpDir ∈ (runOnce o code).1 →
        (runOnce o code).1.getLast? = some (Ev.removeAll o.tmpDir)) := by
  constructor
  · intro hmem
    by_cases hhit : (o.statOk (getCachePaths o code).2 = true ∧
        o.ageNs (getCachePaths o code).2 < ttlNanos)
    · exfalso
      simp [runCached, hhit] at hmem
    · by_cases hmk : o.mkdirAllOk (getCachePaths o code).1 = true
      · by_cases hws : o.writeFileOk (pathJoin (getCachePaths o code).1 "main.go") = true
        · by_cases htmp : o.mkdirTempOk = true
          · have htr : (runCached o code).1 =
                [Ev.stat (getCachePaths o code).2, Ev.mkdirAll (getCachePaths o code).1,
                  Ev.writeFile (pathJoin (getCachePaths o code).1 "main.go")] ++
                ((Ev.mkdirTemp o.tmpDir ::
                    (cachedBody o (getCachePaths o code).1 (getCachePaths o code).2).1) ++
                  [Ev.removeAll o.tmpDir]) := by
              simp [runCached, hhit, hmk, hws, htmp]
            rw [htr]
            exact getLast?_nested _ _ _ _
          · exfalso
            simp [runCached, hhit, hmk, hws, htmp] at hmem
        · exfalso
          simp [runCached, hhit, hmk, hws] at hmem
      · exfalso
        simp [runCached, hhit, hmk] at hmem
  · intro hmem
    by_cases htmp : o.mkdirTempOk = true
    · have htr : (runOnce o code).1 =
          Ev.mkdirTemp o.tmpDir :: ((onceBody o).1 ++ [Ev.removeAll o.tmpDir]) := by
        simp [runOnce, htmp]
      rw [htr]
      exact getLast?_cons_append_one _ _ _
    · exfalso
      simp [runOnce, htmp] at hmem

/-- C9 witness: `c9_workspace_removed_last` on a successful cached run. -/
theorem c9_workspace_removed_last_witness :
    Ev.mkdirTemp oracleOk.tmpDir ∈ (runCached oracleOk ("package c\n".toList)).1 ∧
    (runCached oracleOk ("package c\n".toList)).1.getLast? =
      some (Ev.removeAll oracleOk.tmpDir) :=
  ⟨by decide, (c9_workspace_removed_last oracleOk ("package c\n".toList)).1 (by decide)⟩

/-! ## Claim C10 -/

/-- C10: when `os.UserCacheDir` fails, `getCachePaths` returns the pair of
empty strings and its return type carries no error; `runCached` then stats
the empty path, attempts `MkdirAll` on the empty path on a miss, and —
should that succeed — writes the persisted source at
`filepath.Join("", "main.go") = "main.go"`. -/
theorem c10_empty_cache_paths (o : OSOracle) (code : List Char)
    (h : o.ucdOk = false) :
    getCachePaths o code = ("", "") ∧
    (runCached o code).1.head? = some (Ev.stat "") ∧
    (¬ (o.statOk "" = true ∧ o.ageNs "" < ttlNanos) →
        (runCached o code).1.take 2 = [Ev.stat "", Ev.mkdirAll ""]) ∧
    (¬ (o.statOk "" = true ∧ o.ageNs "" < ttlNanos) → o.mkdirAllOk "" = true →
        (runCached o code).1.take 3 =
          [Ev.stat "", Ev.mkdirAll "", Ev.writeFile "main.go"]) := by
  have hg : getCachePaths o code = ("", "") := by simp [getCachePaths, h]
  refine ⟨hg, ?_, ?_, ?_⟩
  · by_cases hhit : (o.statOk "" = true ∧ o.ageNs "" < ttlNanos)
    · simp [runCached, hg, hhit]
    · simp only [runCached, hg]
      split_ifs <;> simp [pathJoin]
  · intro hmiss
    simp only [runCached, hg]
    split_ifs with h1 <;> first
      | exact absurd h1 hmiss
      | simp [pathJoin]
  · intro hmiss hmk
    simp only [runCached, hg]
    split_ifs with h1 <;> first
      | exact absurd h1 hmiss
      | simp [pathJoin]

/-- C10 witness: `c10_empty_cache_paths` at the concrete oracle whose
`os.UserCacheDir` fails and whose `MkdirAll` succeeds. -/
theorem c10_empty_cache_paths_witness :
    getCachePaths oracleNoUcd ("package d\n".toList) = ("", "") ∧
    (runCached oracleNoUcd ("package d\n".toList)).1.take 3 =
      [Ev.stat "", Ev.mkdirAll "", Ev.writeFile "main.go"] :=
  ⟨(c10_empty_cache_paths oracleNoUcd ("package d\n".toList) (by decide)).1,
   (c10_empty_cache_paths oracleNoUcd ("package d\n".toList) (by decide)).2.2.2
     (by decide) (by decide)⟩

/-! ## Claim C1 -/

/-- C1: (code bug) the source `"1+1\n"` fails validation, yet `main` runs
the whole cached pipeline — workspace creation, dependency resolution,
compilation, and even execution of the freshly built binary — before
`validateCode` is ever consulted, because of the duplicated run block ahead
of the validation check; the process then exits 1 on the validation
error. -/
theorem c1_build_runs_despite_invalid_source :
    validateCode ("1+1\n".toList) = some () ∧
    (mainGo oracleOk false ("1+1\n".toList)).2 = 1 ∧
    Ev.mkdirTemp "/tmp/gogo-build-1" ∈ (mainGo oracleOk false ("1+1\n".toList)).1 ∧
    Ev.tidyRun "/tmp/gogo-build-1" ∈ (mainGo oracleOk false ("1+1\n".toList)).1 ∧
    Ev.buildRun "/tmp/gogo-build-1" "/home/u/.cache/gogo/0123456789abcdef/run" ∈
      (mainGo oracleOk false ("1+1\n".toList)).1 ∧
    Ev.runBinary "/home/u/.cache/gogo/0123456789abcdef/run" ∈
      (mainGo oracleOk false ("1+1\n".toList)).1 := by
  decide

/-! ## Claim C5 -/

/-- C5: (code bug) on empty input, `main` invokes the build pipeline before
the empty-input check (the duplicated run block); with the build failing on
the empty source, the process exits 1 via the generic error path and the
usage instructions are never printed. -/
theorem c5_empty_input_reaches_build_without_usage :
    (mainGo oracleCompileFail false []).2 = 1 ∧
    Ev.usagePrinted ∉ (mainGo oracleCompileFail false []).1 ∧
    Ev.mkdirTemp "/tmp/gogo-build-1" ∈ (mainGo oracleCompileFail false []).1 ∧
    Ev.tidyRun "/tmp/gogo-build-1" ∈ (mainGo oracleCompileFail false []).1 ∧
    (runCached oracleCompileFail []).2 = some GoErr.compilationFailed := by
  decide

end Gogo
